import Mathlib

/-
Verification of the core logic of the python-coding-agent repository.

The embedded code lives in `src/python-ai-agent/src/`:
  * `code_executor.py`  : `CodeExecutor.execute_file`, `CodeExecutor.parse_error`
  * `tools.py`          : `extract_code`, `format_traceback`, `create_prompt`
  * `agent.py`          : `DebugAgent.fix_file` (the fix-verify-retry loop)
  * `ollama_client.py`  : `OllamaClient.generate` (returns "" on any failure)

Python strings are modelled as Lean `String` / `List Char`; Python's
`str.strip`, `str.split('\n')`, `str.find`, `in`, `str.lower` and the
regex search `line (\d+)` are modelled by the executable helpers below.
ASCII is assumed for case folding and digits (the repository only ever
handles CPython traceback text, which is ASCII in the relevant parts).
-/

namespace PyAgent

/-- Python `str.strip` whitespace class (space, tab, newline, carriage
return, vertical tab, form feed). -/
def pyWs (c : Char) : Bool :=
  c = ' ' || c = '\t' || c = '\n' || c = '\r' || c = '\x0b' || c = '\x0c'

/-- Python `str.strip()` on a character list: drop whitespace from both ends. -/
def pyStrip (cs : List Char) : List Char :=
  ((cs.dropWhile pyWs).reverse.dropWhile pyWs).reverse

/-- Prepend a character to the first piece of a split (the nonempty-list
invariant of `splitNl` makes the `[]` case unreachable). -/
def consHead (c : Char) : List (List Char) → List (List Char)
  | [] => [[c]]
  | h :: r => (c :: h) :: r

/-- Python `str.split('\n')`: split a character list at every newline.
Mirrors Python's convention that `"".split('\n') == [""]`. -/
def splitNl : List Char → List (List Char)
  | [] => [[]]
  | c :: t => if c = '\n' then [] :: splitNl t else consHead c (splitNl t)

/-- Python `'\n'.join(lines)`. -/
def joinNl : List (List Char) → List Char
  | [] => []
  | [l] => l
  | l :: l2 :: ls => l ++ '\n' :: joinNl (l2 :: ls)

/-- Python `pat in s` (substring containment). -/
def containsSub (pat : List Char) : List Char → Bool
  | [] => pat.isPrefixOf ([] : List Char)
  | c :: t => pat.isPrefixOf (c :: t) || containsSub pat t

/-- Python `s.find(pat)`: index of the leftmost occurrence, `none` for `-1`. -/
def findSub (pat : List Char) : List Char → Option Nat
  | [] => if pat.isPrefixOf ([] : List Char) then some 0 else none
  | c :: t =>
    if pat.isPrefixOf (c :: t) then some 0
    else (findSub pat t).map (· + 1)

/-- Python `str.lower()` (ASCII case folding, via `Char.toLower`). -/
def toLowerL (cs : List Char) : List Char := cs.map Char.toLower

/-- Numeric value of a decimal digit string, as computed by Python `int`. -/
def digitsToNat (ds : List Char) : Nat :=
  ds.foldl (fun a c => a * 10 + (c.toNat - 48)) 0

/-- One position of the regex search `re.search(r'line (\d+)', line)`:
at the head of `cs`, the pattern matches iff the literal `"line "` is a
prefix and at least one decimal digit follows; the captured group is the
maximal digit run. -/
def lineNumAt (cs : List Char) : Option Nat :=
  if ("line ".data).isPrefixOf cs then
    let ds := (cs.drop 5).takeWhile Char.isDigit
    if ds.isEmpty then none else some (digitsToNat ds)
  else none

/-- `re.search(r'line (\d+)', line)`: leftmost match wins within a line. -/
def searchLineNum : List Char → Option Nat
  | [] => none
  | c :: t =>
    match lineNumAt (c :: t) with
    | some n => some n
    | none => searchLineNum t

/-- The lines of a Python string after `strip()` and `split('\n')`,
exactly as `parse_error` (code_executor.py line 138) and
`format_traceback` (tools.py line 204) compute them. -/
def pyLines (s : String) : List (List Char) := splitNl (pyStrip s.data)

/-- The classification-line test of `parse_error` (code_executor.py
lines 148-150): the line contains a colon and one of the substrings
`"Error"`, `"Exception"`, `"Warning"`. -/
def isClassLine (l : List Char) : Bool :=
  l.contains ':' &&
    (containsSub "Error".data l || containsSub "Exception".data l ||
      containsSub "Warning".data l)

/-- Result record of `CodeExecutor.parse_error` (the dictionary built at
code_executor.py lines 139-144).  `hasLine` records whether the `"line"`
key is present in the returned dictionary: the empty-stderr early return
at code_executor.py line 136 builds a dictionary without it, so a later
`error_info['line']` lookup raises `KeyError`; `line` is meaningful only
when `hasLine = true` (then it is the key's value, `None` or an int). -/
structure ErrorInfo where
  type : String
  message : String
  traceback : String
  line : Option Nat
  hasLine : Bool
deriving Repr, DecidableEq

/-- The first scan of `parse_error` (code_executor.py lines 147-154):
walk the lines from the last one backward, stop at the first
classification line, and split it at its first colon
(Python `line.split(':', 1)`) into stripped `type` and `message`. -/
def classifyTM (lines : List (List Char)) : String × String :=
  match lines.reverse.find? isClassLine with
  | some l =>
    ((pyStrip (l.takeWhile (· ≠ ':'))).asString,
     (pyStrip ((l.dropWhile (· ≠ ':')).drop 1)).asString)
  | none => ("Unknown", "")

/-- The second scan of `parse_error` (code_executor.py lines 157-165):
walk the lines forward; every line whose lower-cased text contains
`"line"` is searched with `re.search(r'line (\d+)', line)` and a
successful search overwrites the accumulator (the Python loop has no
`break`). -/
def scanLineNum (lines : List (List Char)) : Option Nat :=
  lines.foldl
    (fun acc l =>
      if containsSub "line".data (toLowerL l) then
        match searchLineNum l with
        | some n => some n
        | none => acc
      else acc)
    none

/-- Embedding of `CodeExecutor.parse_error` (code_executor.py lines
125-167): the empty-stderr guard (whose dictionary has no `"line"` key,
hence `hasLine = false`), then the two scans over
`stderr.strip().split('\n')`, with the raw stderr kept in `traceback`. -/
def parse_error (stderr : String) : ErrorInfo :=
  if stderr = "" then ⟨"NoError", "", "", none, false⟩
  else
    ⟨(classifyTM (pyLines stderr)).1, (classifyTM (pyLines stderr)).2,
      stderr, scanLineNum (pyLines stderr), true⟩

/-- Embedding of `format_traceback` (tools.py lines 194-210): strip,
split into lines, keep the last 10 lines (`lines[-10:]`, i.e. drop all
but the last 10) when there are more than 10, and join with newlines. -/
def format_traceback (s : String) : String :=
  if 10 < (pyLines s).length then
    (joinNl ((pyLines s).drop ((pyLines s).length - 10))).asString
  else (joinNl (pyLines s)).asString

/-- The second tier of `extract_code` (tools.py lines 126-133): the
content of the first generic fenced block when a closing fence follows,
else the whole text stripped.  `extract_code` falls through to this when
there is no ```` ```python ```` fence or when that fence is unclosed. -/
def extractFence (cs : List Char) : String :=
  match findSub "```".data cs with
  | some i =>
    match findSub "```".data (cs.drop (i + 3)) with
    | some j => (pyStrip ((cs.drop (i + 3)).take j)).asString
    | none => (pyStrip cs).asString
  | none => (pyStrip cs).asString

/-- Embedding of `extract_code` (tools.py lines 109-133).  Python's
`if pat in response: start = response.find(pat) + len(pat)` pair is
modelled by matching on `findSub` (`pat in s` iff `s.find(pat) != -1`,
and `find` returns the leftmost index). -/
def extract_code (response : String) : String :=
  let cs := response.data
  match findSub "```python".data cs with
  | some i =>
    match findSub "```".data (cs.drop (i + 9)) with
    | some j => (pyStrip ((cs.drop (i + 9)).take j)).asString
    | none => extractFence cs
  | none => extractFence cs

/-- Result of one execution, the `(success, stdout, stderr)` triple
returned by `CodeExecutor.execute_file` / `execute_code`. -/
structure ExecResult where
  success : Bool
  stdout : String
  stderr : String
deriving Repr, DecidableEq

/-- Outcome of the underlying `subprocess.run` call (or of spawning it):
the child completed with an exit status, the timeout expired, or the
spawn itself failed with some diagnostic. -/
inductive RunOutcome where
  | completed (returncode : Int) (stdout stderr : String)
  | timedOut
  | spawnError (msg : String)
deriving Repr, DecidableEq

/-- Embedding of `CodeExecutor.execute_file` (code_executor.py lines
27-72) over the outcome of the child process.  The try/except structure
makes the function total: every outcome, including `TimeoutExpired` and
any spawn exception, is converted into a returned triple. -/
def execute_file (timeout : Nat) (o : RunOutcome) : ExecResult :=
  match o with
  | .completed rc out err => ⟨rc == 0, out, err⟩
  | .timedOut =>
    ⟨false, "", "Execution timed out after " ++ toString timeout ++ " seconds"⟩
  | .spawnError msg => ⟨false, "", "Execution error: " ++ msg⟩

/-- Embedding of the `task == "fix"` branch of `create_prompt`
(tools.py lines 52-63): the code and the error text are spliced verbatim
into the fixed template. -/
def createPromptFix (code error : String) : String :=
  "Fix this Python code. The code has an error.\n\nCode:\n```python\n"
    ++ code
    ++ "\n```\n\nError:\n"
    ++ error
    ++ "\n\nProvide ONLY the corrected Python code without explanations. Start directly with the code."

/-- State returned by the retry loop of `DebugAgent.fix_file`
(agent.py lines 97-107). `raised = true` records that the Python code
raised an unhandled `TypeError`: when `_attempt_fix` returns `None`
inside the loop, the very next statement is
`execute_code(fixed_code)` with `fixed_code = None`, and
`tmp_file.write(None)` raises. -/
structure LoopRes where
  fixedCode : String
  isValid : Bool
  testStderr : String
  raised : Bool
  llmCalls : Nat
  execCalls : Nat
  prompts : List String
deriving Repr, DecidableEq

/-- The retry loop of `DebugAgent.fix_file` (agent.py lines 97-107),
entered with the first candidate `fixedCode` (which already failed with
`testStderr`).  `llm i` is the raw text returned by the i-th call of
`OllamaClient.generate` in this `fix_file` invocation (`""` models a
generate failure, which `generate` turns into an empty string, and which
`_attempt_fix` turns into `None`).  `execCode` gives the `ExecResult` of
re-executing a candidate source.  `fuel` is `max_retries - 1`, the
length of Python's `range(self.max_retries - 1)`. -/
def fixLoop (execCode : String → ExecResult) (llm : Nat → String)
    (fixedCode testStderr : String) (callIdx : Nat) : Nat → LoopRes
  | 0 => ⟨fixedCode, false, testStderr, false, 0, 0, []⟩
  | fuel + 1 =>
    let prompt := createPromptFix fixedCode
      ("Previous fix failed with: " ++ testStderr)
    let resp := llm callIdx
    if resp = "" then
      ⟨fixedCode, false, testStderr, true, 1, 0, [prompt]⟩
    else
      let fc := extract_code resp
      let r := execCode fc
      if r.success then ⟨fc, true, r.stderr, false, 1, 1, [prompt]⟩
      else
        let rest := fixLoop execCode llm fc r.stderr (callIdx + 1) fuel
        ⟨rest.fixedCode, rest.isValid, rest.testStderr, rest.raised,
          rest.llmCalls + 1, rest.execCalls + 1, prompt :: rest.prompts⟩

/-- Observable trace of one `DebugAgent.fix_file` call.
`result = some b` means the Python function returned `b`;
`result = none` means it raised an unhandled exception.
`written` is the candidate handed to `FileHandler.write_file`, when that
call was reached.  `prompts` lists the prompt of every completion-service
call, in order. -/
structure FixTrace where
  result : Option Bool
  llmCalls : Nat
  execCalls : Nat
  written : Option String
  prompts : List String
deriving Repr, DecidableEq

/-- The apply phase of `fix_file` (agent.py lines 117-125):
`if auto_apply or confirm_action(...): if write_file(...): return True`,
`else: return False`, with a final `return False` fall-through when the
write fails. -/
def applyFix (autoApply confirms writeOk : Bool) (fc : String)
    (lc ec : Nat) (ps : List String) : FixTrace :=
  if autoApply || confirms then
    if writeOk then ⟨some true, lc, ec, some fc, ps⟩
    else ⟨some false, lc, ec, some fc, ps⟩
  else ⟨some false, lc, ec, none, ps⟩

/-- Embedding of `DebugAgent.fix_file` (agent.py lines 46-125).
`code` is the text `read_file` returned (Python's `if not code` guard
fires exactly on the empty string once a string was returned);
`initRun` is the `ExecResult` of executing the file itself;
`execCode` gives the result of re-executing any candidate source;
`llm i` is the raw completion text of the i-th `generate` call (`""` on
service failure); `autoApply`, `confirms`, `writeOk` model the
`auto_apply` flag, the user's confirmation, and `write_file`'s result.
`_attempt_fix` (agent.py lines 127-156) is inlined: it returns `None`
iff the raw response is empty, else `extract_code(response)`.
After a failed run, agent.py line 77 reads `error_info['line']` for the
error panel; when the captured stderr is empty, `parse_error`'s
dictionary has no `"line"` key (code_executor.py line 136) and that
lookup raises an unhandled `KeyError` before any completion call —
`result = none` with zero attempts in the embedding. -/
def fix_file (maxRetries : Nat) (code : String) (initRun : ExecResult)
    (execCode : String → ExecResult) (llm : Nat → String)
    (autoApply confirms writeOk : Bool) : FixTrace :=
  if code = "" then ⟨some false, 0, 0, none, []⟩
  else if initRun.success then ⟨some true, 0, 0, none, []⟩
  else if (parse_error initRun.stderr).hasLine = false then
    ⟨none, 0, 0, none, []⟩
  else
    let prompt0 := createPromptFix code (format_traceback initRun.stderr)
    let resp0 := llm 0
    if resp0 = "" then ⟨some false, 1, 0, none, [prompt0]⟩
    else
      let fc0 := extract_code resp0
      if fc0 = "" then ⟨some false, 1, 0, none, [prompt0]⟩
      else
        let r0 := execCode fc0
        if r0.success then
          applyFix autoApply confirms writeOk fc0 1 1 [prompt0]
        else
          let lr := fixLoop execCode llm fc0 r0.stderr 1 (maxRetries - 1)
          if lr.raised then
            ⟨none, 1 + lr.llmCalls, 1 + lr.execCalls, none, prompt0 :: lr.prompts⟩
          else if lr.isValid then
            applyFix autoApply confirms writeOk lr.fixedCode
              (1 + lr.llmCalls) (1 + lr.execCalls) (prompt0 :: lr.prompts)
          else
            ⟨some false, 1 + lr.llmCalls, 1 + lr.execCalls, none,
              prompt0 :: lr.prompts⟩

/-! ### Auxiliary lemmas about the string helpers -/

theorem consHead_ne_nil (c : Char) (ls : List (List Char)) :
    consHead c ls ≠ [] := by
  cases ls <;> simp [consHead]

theorem splitNl_ne_nil (cs : List Char) : splitNl cs ≠ [] := by
  cases cs with
  | nil => simp [splitNl]
  | cons c t =>
    simp only [splitNl]
    split
    · simp
    · exact consHead_ne_nil c (splitNl t)

theorem consHead_length (c : Char) (a : List Char) (r : List (List Char)) :
    (consHead c (a :: r)).length = (a :: r).length := rfl

theorem splitNl_length (cs : List Char) :
    (splitNl cs).length = cs.count '\n' + 1 := by
  induction cs with
  | nil => simp [splitNl]
  | cons c t ih =>
    obtain ⟨a, r, hh⟩ := List.exists_cons_of_ne_nil (splitNl_ne_nil t)
    simp only [splitNl]
    by_cases hc : c = '\n'
    · rw [if_pos hc, hc]
      simp only [List.length_cons, List.count_cons, ih]
      simp
    · rw [if_neg hc, hh, consHead_length]
      rw [hh] at ih
      simp only [List.length_cons] at ih ⊢
      rw [List.count_cons]
      have : (c == '\n') = false := by simp [hc]
      rw [this]
      simpa using ih

theorem mem_splitNl_no_nl (cs : List Char) :
    ∀ l ∈ splitNl cs, '\n' ∉ l := by
  induction cs with
  | nil => simp [splitNl]
  | cons c t ih =>
    obtain ⟨a, r, hh⟩ := List.exists_cons_of_ne_nil (splitNl_ne_nil t)
    intro l hl
    simp only [splitNl] at hl
    by_cases hc : c = '\n'
    · rw [if_pos hc] at hl
      rcases List.mem_cons.mp hl with h1 | h1
      · simp [h1]
      · exact ih l h1
    · rw [if_neg hc, hh] at hl
      simp only [consHead, List.mem_cons] at hl
      rw [hh] at ih
      rcases hl with h1 | h1
      · subst h1
        intro hmem
        rcases List.mem_cons.mp hmem with h2 | h2
        · exact hc h2.symm
        · exact ih a (by simp) h2
      · exact ih l (by simp [h1])

theorem joinNl_count (ls : List (List Char)) (hnl : ∀ l ∈ ls, '\n' ∉ l)
    (hne : ls ≠ []) : (joinNl ls).count '\n' = ls.length - 1 := by
  induction ls with
  | nil => exact absurd rfl hne
  | cons l ls ih =>
    cases ls with
    | nil =>
      simp only [joinNl, List.length_cons, List.length_nil]
      rw [List.count_eq_zero]
      exact hnl l (by simp)
    | cons l2 ls' =>
      simp only [joinNl, List.count_append, List.count_cons]
      rw [ih (fun x hx => hnl x (by simp [hx])) (by simp)]
      have h0 : l.count '\n' = 0 := List.count_eq_zero.mpr (hnl l (by simp))
      simp [h0]

theorem count_pyStrip_le (cs : List Char) :
    (pyStrip cs).count '\n' ≤ cs.count '\n' := by
  unfold pyStrip
  rw [List.count_reverse]
  calc ((cs.dropWhile pyWs).reverse.dropWhile pyWs).count '\n'
      ≤ (cs.dropWhile pyWs).reverse.count '\n' :=
        (List.dropWhile_sublist _).count_le _
    _ = (cs.dropWhile pyWs).count '\n' := List.count_reverse _ _
    _ ≤ cs.count '\n' := (List.dropWhile_sublist _).count_le _

theorem findSome?_append_single {α β : Type} (xs : List α) (x : α)
    (f : α → Option β) :
    (xs ++ [x]).findSome? f =
      match xs.findSome? f with
      | some b => some b
      | none => f x := by
  induction xs with
  | nil =>
    simp only [List.nil_append, List.findSome?]
    cases f x <;> rfl
  | cons a t ih =>
    simp only [List.cons_append, List.findSome?]
    cases f a <;> simp [ih]

theorem searchLineNum_contains (l : List Char) (n : Nat)
    (h : searchLineNum l = some n) :
    containsSub "line".data (toLowerL l) = true := by
  induction l with
  | nil => simp [searchLineNum] at h
  | cons c t ih =>
    simp only [searchLineNum] at h
    cases hat : lineNumAt (c :: t) with
    | some m =>
      unfold lineNumAt at hat
      by_cases hp : ("line ".data).isPrefixOf (c :: t)
      · have hpre : "line ".data <+: c :: t := by
          exact (List.isPrefixOf_iff_prefix).mp hp
        obtain ⟨rest, hrest⟩ := hpre
        have : toLowerL (c :: t) = "line ".data ++ toLowerL rest := by
          rw [← hrest]
          simp [toLowerL]
        rw [this]
        have hpre2 : ("line".data).isPrefixOf ("line ".data ++ toLowerL rest) := by
          apply (List.isPrefixOf_iff_prefix).mpr
          refine ⟨' ' :: toLowerL rest, ?_⟩
          rfl
        unfold containsSub
        rcases hn : "line ".data ++ toLowerL rest with _ | ⟨c', t'⟩
        · simp at hn
        · rw [hn] at hpre2
          simp [hpre2]
      · rw [if_neg hp] at hat
        exact absurd hat (by simp)
    | none =>
      rw [hat] at h
      have hc := ih h
      have : toLowerL (c :: t) = Char.toLower c :: toLowerL t := rfl
      rw [this]
      unfold containsSub
      simp [hc]

/-! ### Auxiliary lemmas about the repair loop -/

theorem fixLoop_isValid (execCode : String → ExecResult) (llm : Nat → String) :
    ∀ (fuel : Nat) (fc ts : String) (idx : Nat),
      (fixLoop execCode llm fc ts idx fuel).isValid = true →
      (execCode (fixLoop execCode llm fc ts idx fuel).fixedCode).success = true := by
  intro fuel
  induction fuel with
  | zero => intro fc ts idx h; simp [fixLoop] at h
  | succ n ih =>
    intro fc ts idx h
    simp only [fixLoop] at h ⊢
    by_cases h0 : llm idx = ""
    · rw [if_pos h0] at h
      simp at h
    · rw [if_neg h0] at h ⊢
      by_cases hr : (execCode (extract_code (llm idx))).success
      · rw [if_pos hr] at h ⊢
        exact hr
      · rw [if_neg hr] at h ⊢
        exact ih _ _ _ h

theorem fixLoop_calls_le (execCode : String → ExecResult) (llm : Nat → String) :
    ∀ (fuel : Nat) (fc ts : String) (idx : Nat),
      (fixLoop execCode llm fc ts idx fuel).llmCalls ≤ fuel ∧
      (fixLoop execCode llm fc ts idx fuel).execCalls ≤ fuel := by
  intro fuel
  induction fuel with
  | zero => intro fc ts idx; simp [fixLoop]
  | succ n ih =>
    intro fc ts idx
    simp only [fixLoop]
    by_cases h0 : llm idx = ""
    · rw [if_pos h0]
      simp
    · rw [if_neg h0]
      by_cases hr : (execCode (extract_code (llm idx))).success
      · rw [if_pos hr]
        simp
      · rw [if_neg hr]
        have := ih (extract_code (llm idx))
          (execCode (extract_code (llm idx))).stderr (idx + 1)
        simp only []
        omega

theorem applyFix_result_true (aa cf wo : Bool) (fc : String) (lc ec : Nat)
    (ps : List String) (h : (applyFix aa cf wo fc lc ec ps).result = some true) :
    (applyFix aa cf wo fc lc ec ps).written = some fc := by
  unfold applyFix at h ⊢
  split at h
  · split at h
    · split <;> simp_all
    · simp at h
  · simp at h

theorem applyFix_llmCalls (aa cf wo : Bool) (fc : String) (lc ec : Nat)
    (ps : List String) : (applyFix aa cf wo fc lc ec ps).llmCalls = lc := by
  unfold applyFix
  split
  · split <;> rfl
  · rfl

theorem applyFix_execCalls (aa cf wo : Bool) (fc : String) (lc ec : Nat)
    (ps : List String) : (applyFix aa cf wo fc lc ec ps).execCalls = ec := by
  unfold applyFix
  split
  · split <;> rfl
  · rfl

theorem applyFix_prompts (aa cf wo : Bool) (fc : String) (lc ec : Nat)
    (ps : List String) : (applyFix aa cf wo fc lc ec ps).prompts = ps := by
  unfold applyFix
  split
  · split <;> rfl
  · rfl

theorem parse_error_hasLine_true (s : String) (h : s ≠ "") :
    (parse_error s).hasLine = true := by
  unfold parse_error
  rw [if_neg h]

theorem findSub_append_none (pat ext s : List Char)
    (h : findSub pat s = none) : findSub (pat ++ ext) s = none := by
  have key : ∀ u : List Char, (pat ++ ext).isPrefixOf u = true →
      pat.isPrefixOf u = true := by
    intro u hu
    exact (List.isPrefixOf_iff_prefix).mpr
      ((List.prefix_append pat ext).trans ((List.isPrefixOf_iff_prefix).mp hu))
  induction s with
  | nil =>
    simp only [findSub] at h ⊢
    by_cases hp : pat.isPrefixOf ([] : List Char)
    · rw [if_pos hp] at h
      exact absurd h (by simp)
    · by_cases hq : (pat ++ ext).isPrefixOf ([] : List Char)
      · exact absurd (key _ hq) hp
      · rw [if_neg hq]
  | cons c t ih =>
    simp only [findSub] at h ⊢
    by_cases hp : pat.isPrefixOf (c :: t)
    · rw [if_pos hp] at h
      exact absurd h (by simp)
    · rw [if_neg hp] at h
      have ht : findSub pat t = none := by
        cases hft : findSub pat t with
        | none => rfl
        | some k => rw [hft] at h; simp at h
      by_cases hq : (pat ++ ext).isPrefixOf (c :: t)
      · exact absurd (key _ hq) hp
      · rw [if_neg hq, ih ht]
        rfl

theorem scanLineNum_eq_backward (ls : List (List Char)) :
    ∀ acc : Option Nat,
      ls.foldl
        (fun acc l =>
          if containsSub "line".data (toLowerL l) then
            match searchLineNum l with
            | some n => some n
            | none => acc
          else acc) acc =
      match ls.reverse.findSome? searchLineNum with
      | some n => some n
      | none => acc := by
  induction ls with
  | nil => intro acc; simp [List.findSome?]
  | cons l t ih =>
    intro acc
    simp only [List.foldl_cons, List.reverse_cons]
    rw [ih, findSome?_append_single]
    cases hft : t.reverse.findSome? searchLineNum with
    | some n => rfl
    | none =>
      by_cases hc : containsSub "line".data (toLowerL l) = true
      · rw [if_pos hc]
      · rw [if_neg hc]
        cases hs : searchLineNum l with
        | none => rfl
        | some n => exact absurd (searchLineNum_contains l n hs) (by simp [hc])

/-! ### Claim C8 -/

/-- C8: `CodeExecutor.execute_file` never raises to its caller (the
embedding is a total function over every child-process outcome): a
timeout yields exactly
`{succeeded: false, standardOutput: "", standardError: "Execution timed out after <N> seconds"}`
with `<N>` the configured timeout, and a spawn failure yields
`succeeded = false` with a diagnostic `standardError`. -/
theorem execute_file_failure_results (timeout : Nat) (o : RunOutcome) :
    (o = RunOutcome.timedOut →
      execute_file timeout o =
        ⟨false, "", "Execution timed out after " ++ toString timeout ++ " seconds"⟩) ∧
    (∀ m, o = RunOutcome.spawnError m →
      (execute_file timeout o).success = false ∧
      (execute_file timeout o).stdout = "" ∧
      (execute_file timeout o).stderr = "Execution error: " ++ m) ∧
    (∀ rc out err, o = RunOutcome.completed rc out err →
      (execute_file timeout o).success = (rc == 0)) := by
  refine ⟨?_, ?_, ?_⟩ <;> intros <;> subst_eqs <;> simp [execute_file]

/-- Witness for C8 at `timeout = 10`. -/
theorem execute_file_failure_results_witness :
    execute_file 10 RunOutcome.timedOut =
      ⟨false, "", "Execution timed out after " ++ toString 10 ++ " seconds"⟩ ∧
    (execute_file 10 (RunOutcome.spawnError "no interpreter")).success = false ∧
    (execute_file 10 (RunOutcome.spawnError "no interpreter")).stderr =
      "Execution error: " ++ "no interpreter" :=
  ⟨(execute_file_failure_results 10 RunOutcome.timedOut).1 rfl,
   ((execute_file_failure_results 10 (RunOutcome.spawnError "no interpreter")).2.1
      "no interpreter" rfl).1,
   ((execute_file_failure_results 10 (RunOutcome.spawnError "no interpreter")).2.1
      "no interpreter" rfl).2.2⟩

/-! ### Claim C3 -/

/-- C3 counterexample: on the non-empty stderr `"hello"` (no colon, no
error marker in any line) the classifier returns kind `"Unknown"` but its
`message` field is empty, not the full input text as the claim states;
the full text is kept in the `traceback` field instead. -/
theorem parse_error_unknown_message_cex :
    (parse_error "hello").type = "Unknown" ∧
    (parse_error "hello").message ≠ "hello" ∧
    (parse_error "hello").message = "" ∧
    (parse_error "hello").traceback = "hello" :=
  ⟨rfl, by decide, rfl, rfl⟩

/-- C3 amended: for every non-empty stderr in which no line contains
both a colon and one of `"Error"`, `"Exception"`, `"Warning"`, the
classifier returns kind `"Unknown"` with an empty `message`, while the
full input text is kept in the `traceback` field. -/
theorem parse_error_no_marker_unknown (s : String) (h : s ≠ "")
    (h2 : ∀ l ∈ pyLines s, isClassLine l = false) :
    (parse_error s).type = "Unknown" ∧ (parse_error s).message = "" ∧
    (parse_error s).traceback = s := by
  have hfind : (pyLines s).reverse.find? isClassLine = none := by
    rw [List.find?_eq_none]
    intro x hx
    simp [h2 x (List.mem_reverse.mp hx)]
  unfold parse_error
  rw [if_neg h]
  unfold classifyTM
  rw [hfind]
  exact ⟨rfl, rfl, rfl⟩

/-- Witness for the amended C3 at the concrete stderr `"hello"`. -/
theorem parse_error_no_marker_unknown_witness :
    (parse_error "hello").type = "Unknown" ∧ (parse_error "hello").message = "" ∧
    (parse_error "hello").traceback = "hello" :=
  parse_error_no_marker_unknown "hello" (by decide) (by decide)

/-! ### Claim C2 -/

/-- C2 counterexample: the line-number scan does not stop at the first
match (the Python loop lacks a `break`, so the last matching line wins:
`"line 1\nline 2"` yields 2, not 1), and the number pattern is matched
case-sensitively (`re.search(r'line (\d+)', ...)`), so the
case-insensitively selected line `"LINE 7"` sets nothing. -/
theorem parse_error_first_match_cex :
    (parse_error "line 1\nline 2").line = some 2 ∧
    (parse_error "LINE 7").line = none :=
  ⟨rfl, rfl⟩

/-- C2 amended: for every non-empty stderr, `sourceLine` equals the
first match of `re.search(r'line (\d+)', line)` — lowercase `"line"`,
one space, then digits, leftmost occurrence within the line — found when
scanning the lines from the last one backward (equivalently, the last
matching line of a forward scan overwrites all earlier matches); if no
line matches, `sourceLine` is left unset. -/
theorem parse_error_line_last_match (s : String) (h : s ≠ "") :
    (parse_error s).line = (pyLines s).reverse.findSome? searchLineNum := by
  unfold parse_error
  rw [if_neg h]
  show scanLineNum (pyLines s) = _
  unfold scanLineNum
  rw [scanLineNum_eq_backward]
  cases (pyLines s).reverse.findSome? searchLineNum <;> rfl

/-- Witness for the amended C2 at the concrete stderr `"near line 12"`. -/
theorem parse_error_line_last_match_witness :
    (parse_error "near line 12").line =
      (pyLines "near line 12").reverse.findSome? searchLineNum :=
  parse_error_line_last_match "near line 12" (by decide)

/-! ### Claim C6 -/

/-- C6: for every non-empty stderr, the classification scans lines from
the last backward and the first line containing a colon and one of
`"Error"`, `"Exception"`, `"Warning"` is split at its first colon into
trimmed kind and trimmed message; in particular any stderr whose last
line is `"ZeroDivisionError: division by zero"` yields
kind `"ZeroDivisionError"` and message `"division by zero"`. -/
theorem parse_error_backward_scan (s : String) (h : s ≠ "") :
    (∀ l, (pyLines s).reverse.find? isClassLine = some l →
      (parse_error s).type = (pyStrip (l.takeWhile (· ≠ ':'))).asString ∧
      (parse_error s).message =
        (pyStrip ((l.dropWhile (· ≠ ':')).drop 1)).asString) ∧
    ((pyLines s).getLast? = some "ZeroDivisionError: division by zero".data →
      (parse_error s).type = "ZeroDivisionError" ∧
      (parse_error s).message = "division by zero") := by
  have hmain : ∀ l, (pyLines s).reverse.find? isClassLine = some l →
      (parse_error s).type = (pyStrip (l.takeWhile (· ≠ ':'))).asString ∧
      (parse_error s).message =
        (pyStrip ((l.dropWhile (· ≠ ':')).drop 1)).asString := by
    intro l hl
    unfold parse_error
    rw [if_neg h]
    unfold classifyTM
    rw [hl]
    exact ⟨rfl, rfl⟩
  refine ⟨hmain, fun hlast => ?_⟩
  have hrev : (pyLines s).reverse.head? =
      some "ZeroDivisionError: division by zero".data := by
    rw [List.head?_reverse]
    exact hlast
  obtain ⟨t, ht⟩ : ∃ t, (pyLines s).reverse =
      "ZeroDivisionError: division by zero".data :: t := by
    cases hr : (pyLines s).reverse with
    | nil => rw [hr] at hrev; simp at hrev
    | cons a r =>
      rw [hr] at hrev
      simp only [List.head?_cons, Option.some.injEq] at hrev
      exact ⟨r, by rw [hrev]⟩
  have hfind : (pyLines s).reverse.find? isClassLine =
      some "ZeroDivisionError: division by zero".data := by
    rw [ht]
    exact List.find?_cons_of_pos t (by decide)
  obtain ⟨h1, h2⟩ := hmain _ hfind
  exact ⟨by rw [h1]; rfl, by rw [h2]; rfl⟩

/-- Witness for C6 on a concrete two-line traceback. -/
theorem parse_error_backward_scan_witness :
    (parse_error "boom\nZeroDivisionError: division by zero").type =
      "ZeroDivisionError" ∧
    (parse_error "boom\nZeroDivisionError: division by zero").message =
      "division by zero" :=
  (parse_error_backward_scan "boom\nZeroDivisionError: division by zero"
    (by decide)).2 (by decide)

/-! ### Claim C7 -/

/-- C7: `extract_code` prefers the content of a closed fenced block
marked `python` (the stripped slice between `find("```python") + 9` and
the next fence); with no ```` ```python ```` fence, or with an unclosed
one, it falls through to the generic tier `extractFence`, which yields
the content of the first closed generic fenced block, else the whole
response stripped; with no fence at all the whole stripped response is
returned; and on `"```python\nprint(1)\n```"` the result is exactly
`"print(1)"`. -/
theorem extract_code_fence_preference :
    (∀ (r : String) (i j : Nat),
        findSub "```python".data r.data = some i →
        findSub "```".data (r.data.drop (i + 9)) = some j →
        extract_code r = (pyStrip ((r.data.drop (i + 9)).take j)).asString) ∧
    (∀ (r : String) (i : Nat),
        findSub "```python".data r.data = some i →
        findSub "```".data (r.data.drop (i + 9)) = none →
        extract_code r = extractFence r.data) ∧
    (∀ r : String, findSub "```python".data r.data = none →
        extract_code r = extractFence r.data) ∧
    (∀ (r : String) (i j : Nat),
        findSub "```python".data r.data = none →
        findSub "```".data r.data = some i →
        findSub "```".data (r.data.drop (i + 3)) = some j →
        extract_code r = (pyStrip ((r.data.drop (i + 3)).take j)).asString) ∧
    (∀ r : String, findSub "```".data r.data = none →
        extract_code r = (pyStrip r.data).asString) ∧
    (∀ (cs : List Char) (i j : Nat),
        findSub "```".data cs = some i →
        findSub "```".data (cs.drop (i + 3)) = some j →
        extractFence cs = (pyStrip ((cs.drop (i + 3)).take j)).asString) ∧
    (∀ (cs : List Char) (i : Nat),
        findSub "```".data cs = some i →
        findSub "```".data (cs.drop (i + 3)) = none →
        extractFence cs = (pyStrip cs).asString) ∧
    (∀ cs : List Char, findSub "```".data cs = none →
        extractFence cs = (pyStrip cs).asString) ∧
    extract_code "```python\nprint(1)\n```" = "print(1)" := by
  refine ⟨?_, ?_, ?_, ?_, ?_, ?_, ?_, ?_, ?_⟩
  · intro r i j h1 h2
    simp [extract_code, h1, h2]
  · intro r i h1 h2
    simp [extract_code, h1, h2]
  · intro r h1
    simp [extract_code, h1]
  · intro r i j h1 h2 h3
    simp [extract_code, extractFence, h1, h2, h3]
  · intro r hf
    have hpy : findSub "```python".data r.data = none := by
      have hcat : ("```".data ++ "python".data : List Char) = "```python".data := rfl
      rw [← hcat]
      exact findSub_append_none "```".data "python".data r.data hf
    simp [extract_code, extractFence, hf, hpy]
  · intro cs i j h1 h2
    simp [extractFence, h1, h2]
  · intro cs i h1 h2
    simp [extractFence, h1, h2]
  · intro cs h1
    simp [extractFence, h1]
  · rfl

/-- Witness for C7: the python-fenced example, the generic-block middle
tier, an unclosed python fence, and a fence-free response. -/
theorem extract_code_fence_preference_witness :
    extract_code "```python\nprint(1)\n```" =
      (pyStrip ((("```python\nprint(1)\n```" : String).data.drop (0 + 9)).take 10)).asString ∧
    extract_code "x ```\ncode\n``` y" =
      (pyStrip ((("x ```\ncode\n``` y" : String).data.drop (2 + 3)).take 6)).asString ∧
    extract_code "```python\nnope" = extractFence ("```python\nnope" : String).data ∧
    extract_code "plain text" = (pyStrip ("plain text" : String).data).asString :=
  ⟨extract_code_fence_preference.1 "```python\nprint(1)\n```" 0 10 rfl rfl,
   extract_code_fence_preference.2.2.2.1 "x ```\ncode\n``` y" 2 6 rfl rfl rfl,
   extract_code_fence_preference.2.1 "```python\nnope" 0 rfl rfl,
   extract_code_fence_preference.2.2.2.2.1 "plain text" rfl⟩

/-! ### Claim C1 -/

/-- C1: whenever `fix_file` returns success, either no candidate was
produced and the original execution already succeeded, or the exact
candidate handed to `write_file` was re-executed by the Executor and
that re-execution succeeded; the completion service's output is never
trusted without re-execution. -/
theorem fix_file_verified_only_by_reexecution (mr : Nat) (code : String)
    (initRun : ExecResult) (execCode : String → ExecResult) (llm : Nat → String)
    (aa cf wo : Bool)
    (h : (fix_file mr code initRun execCode llm aa cf wo).result = some true) :
    ((fix_file mr code initRun execCode llm aa cf wo).written = none ∧
      initRun.success = true) ∨
    (∃ fc, (fix_file mr code initRun execCode llm aa cf wo).written = some fc ∧
      (execCode fc).success = true) := by
  by_cases hc : code = ""
  · simp [fix_file, hc] at h
  by_cases hs : initRun.success = true
  · refine Or.inl ⟨?_, hs⟩
    simp [fix_file, hc, hs]
  by_cases hk : (parse_error initRun.stderr).hasLine = false
  · simp [fix_file, hc, hs, hk] at h
  by_cases h0 : llm 0 = ""
  · simp [fix_file, hc, hs, hk, h0] at h
  by_cases he : extract_code (llm 0) = ""
  · simp [fix_file, hc, hs, hk, h0, he] at h
  by_cases hr : (execCode (extract_code (llm 0))).success = true
  · have heq : fix_file mr code initRun execCode llm aa cf wo =
        applyFix aa cf wo (extract_code (llm 0)) 1 1
          [createPromptFix code (format_traceback initRun.stderr)] := by
      simp [fix_file, hc, hs, hk, h0, he, hr]
    rw [heq] at h ⊢
    exact Or.inr ⟨extract_code (llm 0),
      applyFix_result_true _ _ _ _ _ _ _ h, hr⟩
  · cases hL : fixLoop execCode llm (extract_code (llm 0))
        (execCode (extract_code (llm 0))).stderr 1 (mr - 1) with
    | mk fc' iv ts' rz lc ec ps =>
      have hvalid := fixLoop_isValid execCode llm (mr - 1) (extract_code (llm 0))
        (execCode (extract_code (llm 0))).stderr 1
      rw [hL] at hvalid
      cases rz with
      | true =>
        have heq : (fix_file mr code initRun execCode llm aa cf wo).result = none := by
          simp [fix_file, hc, hs, hk, h0, he, hr, hL]
        rw [heq] at h
        exact absurd h (by simp)
      | false =>
        cases iv with
        | false =>
          have heq : (fix_file mr code initRun execCode llm aa cf wo).result =
              some false := by
            simp [fix_file, hc, hs, hk, h0, he, hr, hL]
          rw [heq] at h
          exact absurd h (by simp)
        | true =>
          have heq : fix_file mr code initRun execCode llm aa cf wo =
              applyFix aa cf wo fc' (1 + lc) (1 + ec)
                (createPromptFix code (format_traceback initRun.stderr) :: ps) := by
            simp [fix_file, hc, hs, hk, h0, he, hr, hL]
          rw [heq] at h ⊢
          exact Or.inr ⟨fc', applyFix_result_true _ _ _ _ _ _ _ h, hvalid rfl⟩

/-- Witness for C1: a failing run, a candidate that re-executes
successfully and is written; the theorem yields the verification fact. -/
theorem fix_file_verified_only_by_reexecution_witness :
    ((fix_file 1 "x" ⟨false, "", "E"⟩ (fun _ => ⟨true, "", ""⟩) (fun _ => "f")
        true true true).written = none ∧
      (⟨false, "", "E"⟩ : ExecResult).success = true) ∨
    (∃ fc, (fix_file 1 "x" ⟨false, "", "E"⟩ (fun _ => ⟨true, "", ""⟩)
        (fun _ => "f") true true true).written = some fc ∧
      ((fun _ : String => (⟨true, "", ""⟩ : ExecResult)) fc).success = true) :=
  fix_file_verified_only_by_reexecution 1 "x" ⟨false, "", "E"⟩
    (fun _ => ⟨true, "", ""⟩) (fun _ => "f") true true true rfl

/-! ### Claim C4 -/

/-- C4 (code-bug exhibit): when the completion service fails on a retry
(second `generate` call returns the empty string), `fix_file` does not
capture the failure — `_attempt_fix` returns `None` and the immediately
following `execute_code(fixed_code)` raises an unhandled `TypeError`
(`result = none` in the embedding).  The identical failure on the first
attempt is handled (`result = some false`), which shows the missing
`None`-check in the retry loop is a slip, contradicting the propagation
policy the claim states. -/
theorem fix_file_retry_llm_failure_raises :
    (fix_file 3 "x" ⟨false, "", "E"⟩ (fun _ => ⟨false, "", "e"⟩)
      (fun i => if i = 0 then "bad" else "") true true true).result = none ∧
    (fix_file 3 "x" ⟨false, "", "E"⟩ (fun _ => ⟨false, "", "e"⟩)
      (fun _ => "") true true true).result = some false :=
  ⟨rfl, rfl⟩

/-! ### Claim C5 -/

/-- C5 counterexample: for the empty source text (whose execution would
succeed, as the supplied `initRun` with `success = true` records),
`fix_file` returns failure without executing anything: the
`if not code` guard fires on the empty string before the first
execution, so the claim's "returns success immediately" fails at
`code = ""`. -/
theorem fix_file_empty_source_cex :
    (⟨true, "", ""⟩ : ExecResult).success = true ∧
    (fix_file 3 "" ⟨true, "", ""⟩ (fun _ => ⟨true, "", ""⟩) (fun _ => "")
      false false false).result = some false :=
  ⟨rfl, rfl⟩

/-- C5 amended: for every non-empty source text whose first execution
succeeds, `fix_file` returns success immediately, with no call to the
completion service and no further execution. -/
theorem fix_file_success_no_llm_call (mr : Nat) (code : String)
    (initRun : ExecResult) (execCode : String → ExecResult) (llm : Nat → String)
    (aa cf wo : Bool) (h1 : code ≠ "") (h2 : initRun.success = true) :
    (fix_file mr code initRun execCode llm aa cf wo).result = some true ∧
    (fix_file mr code initRun execCode llm aa cf wo).llmCalls = 0 ∧
    (fix_file mr code initRun execCode llm aa cf wo).execCalls = 0 ∧
    (fix_file mr code initRun execCode llm aa cf wo).prompts = [] := by
  simp [fix_file, h1, h2]

/-- Witness for the amended C5 on a concrete succeeding source. -/
theorem fix_file_success_no_llm_call_witness :
    (fix_file 3 "print(1)" ⟨true, "ok", ""⟩ (fun _ => ⟨true, "", ""⟩)
      (fun _ => "") false false false).result = some true ∧
    (fix_file 3 "print(1)" ⟨true, "ok", ""⟩ (fun _ => ⟨true, "", ""⟩)
      (fun _ => "") false false false).llmCalls = 0 ∧
    (fix_file 3 "print(1)" ⟨true, "ok", ""⟩ (fun _ => ⟨true, "", ""⟩)
      (fun _ => "") false false false).execCalls = 0 ∧
    (fix_file 3 "print(1)" ⟨true, "ok", ""⟩ (fun _ => ⟨true, "", ""⟩)
      (fun _ => "") false false false).prompts = [] :=
  fix_file_success_no_llm_call 3 "print(1)" ⟨true, "ok", ""⟩
    (fun _ => ⟨true, "", ""⟩) (fun _ => "") false false false (by decide) rfl

/-! ### Claim C9 -/

/-- C9 counterexample: two failures of the claim.  With
`max_retries = 0` the loop still generates and re-executes one candidate
(the unconditional first attempt precedes the `range(max_retries - 1)`
loop), so "at most maxAttempts candidate fixes" fails.  And with a
detected error whose captured stderr is empty, `fix_file` raises an
unhandled `KeyError` at the error panel (agent.py line 77) before any
completion call, so "at least one attempt is made whenever an error was
detected" fails with zero attempts even at `max_retries = 1`. -/
theorem fix_file_attempt_bound_cex :
    (fix_file 0 "x" ⟨false, "", "E"⟩ (fun _ => ⟨false, "", "e"⟩) (fun _ => "y")
      true true true).llmCalls = 1 ∧
    (fix_file 0 "x" ⟨false, "", "E"⟩ (fun _ => ⟨false, "", "e"⟩) (fun _ => "y")
      true true true).execCalls = 1 ∧
    ¬((fix_file 0 "x" ⟨false, "", "E"⟩ (fun _ => ⟨false, "", "e"⟩) (fun _ => "y")
      true true true).llmCalls ≤ 0) ∧
    (fix_file 1 "x" ⟨false, "", ""⟩ (fun _ => ⟨false, "", "e"⟩) (fun _ => "y")
      true true true).result = none ∧
    (fix_file 1 "x" ⟨false, "", ""⟩ (fun _ => ⟨false, "", "e"⟩) (fun _ => "y")
      true true true).llmCalls = 0 :=
  ⟨rfl, rfl, by decide, rfl, rfl⟩

/-- C9 amended: the repair loop is bounded and total — it makes at most
`max(max_retries, 1)` completion calls and at most that many candidate
re-executions (hence at most `max_retries` of each when
`max_retries ≥ 1`), and at least one attempt is made whenever an error
was detected with non-empty captured stderr (with empty stderr the
error display raises `KeyError` before any attempt). -/
theorem fix_file_attempts_bounded (mr : Nat) (code : String)
    (initRun : ExecResult) (execCode : String → ExecResult) (llm : Nat → String)
    (aa cf wo : Bool) :
    ((fix_file mr code initRun execCode llm aa cf wo).llmCalls ≤ max mr 1 ∧
     (fix_file mr code initRun execCode llm aa cf wo).execCalls ≤ max mr 1) ∧
    (1 ≤ mr →
      (fix_file mr code initRun execCode llm aa cf wo).llmCalls ≤ mr ∧
      (fix_file mr code initRun execCode llm aa cf wo).execCalls ≤ mr) ∧
    (code ≠ "" → initRun.success = false → initRun.stderr ≠ "" →
      1 ≤ (fix_file mr code initRun execCode llm aa cf wo).llmCalls) := by
  have key :
      ((fix_file mr code initRun execCode llm aa cf wo).llmCalls ≤ max mr 1 ∧
       (fix_file mr code initRun execCode llm aa cf wo).execCalls ≤ max mr 1) ∧
      (code ≠ "" → initRun.success = false → initRun.stderr ≠ "" →
        1 ≤ (fix_file mr code initRun execCode llm aa cf wo).llmCalls) := by
    by_cases hc : code = ""
    · refine ⟨?_, fun hne _ _ => absurd hc hne⟩
      simp only [fix_file, if_pos hc]
      omega
    by_cases hs : initRun.success = true
    · refine ⟨?_, fun _ hf _ => by rw [hs] at hf; cases hf⟩
      simp [fix_file, hc, hs]
    by_cases hk : (parse_error initRun.stderr).hasLine = false
    · refine ⟨?_, fun _ _ hser => ?_⟩
      · simp [fix_file, hc, hs, hk]
      · rw [parse_error_hasLine_true initRun.stderr hser] at hk
        cases hk
    by_cases h0 : llm 0 = ""
    · have heq : fix_file mr code initRun execCode llm aa cf wo =
          ⟨some false, 1, 0, none,
            [createPromptFix code (format_traceback initRun.stderr)]⟩ := by
        simp [fix_file, hc, hs, hk, h0]
      rw [heq]
      refine ⟨⟨?_, ?_⟩, fun _ _ _ => ?_⟩ <;> simp
    by_cases he : extract_code (llm 0) = ""
    · have heq : fix_file mr code initRun execCode llm aa cf wo =
          ⟨some false, 1, 0, none,
            [createPromptFix code (format_traceback initRun.stderr)]⟩ := by
        simp [fix_file, hc, hs, hk, h0, he]
      rw [heq]
      refine ⟨⟨?_, ?_⟩, fun _ _ _ => ?_⟩ <;> simp
    by_cases hr : (execCode (extract_code (llm 0))).success = true
    · have heq : fix_file mr code initRun execCode llm aa cf wo =
          applyFix aa cf wo (extract_code (llm 0)) 1 1
            [createPromptFix code (format_traceback initRun.stderr)] := by
        simp [fix_file, hc, hs, hk, h0, he, hr]
      rw [heq, applyFix_llmCalls, applyFix_execCalls]
      refine ⟨⟨?_, ?_⟩, fun _ _ _ => ?_⟩ <;> omega
    · have hb := fixLoop_calls_le execCode llm (mr - 1) (extract_code (llm 0))
        (execCode (extract_code (llm 0))).stderr 1
      cases hL : fixLoop execCode llm (extract_code (llm 0))
          (execCode (extract_code (llm 0))).stderr 1 (mr - 1) with
      | mk fc' iv ts' rz lc ec ps =>
        rw [hL] at hb
        simp only [] at hb
        cases rz with
        | true =>
          have heq : fix_file mr code initRun execCode llm aa cf wo =
              ⟨none, 1 + lc, 1 + ec, none,
                createPromptFix code (format_traceback initRun.stderr) :: ps⟩ := by
            simp [fix_file, hc, hs, hk, h0, he, hr, hL]
          rw [heq]
          refine ⟨⟨?_, ?_⟩, fun _ _ _ => ?_⟩ <;> simp <;> omega
        | false =>
          cases iv with
          | true =>
            have heq : fix_file mr code initRun execCode llm aa cf wo =
                applyFix aa cf wo fc' (1 + lc) (1 + ec)
                  (createPromptFix code (format_traceback initRun.stderr) :: ps) := by
              simp [fix_file, hc, hs, hk, h0, he, hr, hL]
            rw [heq, applyFix_llmCalls, applyFix_execCalls]
            refine ⟨⟨?_, ?_⟩, fun _ _ _ => ?_⟩ <;> omega
          | false =>
            have heq : fix_file mr code initRun execCode llm aa cf wo =
                ⟨some false, 1 + lc, 1 + ec, none,
                  createPromptFix code (format_traceback initRun.stderr) :: ps⟩ := by
              simp [fix_file, hc, hs, hk, h0, he, hr, hL]
            rw [heq]
            refine ⟨⟨?_, ?_⟩, fun _ _ _ => ?_⟩ <;> simp <;> omega
  refine ⟨key.1, fun h1 => ?_, key.2⟩
  have hm : max mr 1 = mr := by omega
  exact ⟨le_trans key.1.1 (le_of_eq hm), le_trans key.1.2 (le_of_eq hm)⟩

/-- Witness for the amended C9 at `max_retries = 3` with a detected
error and non-empty stderr. -/
theorem fix_file_attempts_bounded_witness :
    ((fix_file 3 "x" ⟨false, "", "E"⟩ (fun _ => ⟨false, "", "e"⟩)
        (fun _ => "y") true true true).llmCalls ≤ 3 ∧
     (fix_file 3 "x" ⟨false, "", "E"⟩ (fun _ => ⟨false, "", "e"⟩)
        (fun _ => "y") true true true).execCalls ≤ 3) ∧
    1 ≤ (fix_file 3 "x" ⟨false, "", "E"⟩ (fun _ => ⟨false, "", "e"⟩)
        (fun _ => "y") true true true).llmCalls :=
  ⟨(fix_file_attempts_bounded 3 "x" ⟨false, "", "E"⟩
      (fun _ => ⟨false, "", "e"⟩) (fun _ => "y") true true true).2.1 (by decide),
   (fix_file_attempts_bounded 3 "x" ⟨false, "", "E"⟩
      (fun _ => ⟨false, "", "e"⟩) (fun _ => "y") true true true).2.2
      (by decide) rfl (by decide)⟩

/-! ### Claim C10 -/

theorem fix_file_prompts_head (mr : Nat) (code : String)
    (initRun : ExecResult) (execCode : String → ExecResult) (llm : Nat → String)
    (aa cf wo : Bool) (h1 : code ≠ "") (h2 : initRun.success = false)
    (h3 : initRun.stderr ≠ "") :
    (fix_file mr code initRun execCode llm aa cf wo).prompts.head? =
      some (createPromptFix code (format_traceback initRun.stderr)) := by
  have hs : ¬ initRun.success = true := by simp [h2]
  have hk : (parse_error initRun.stderr).hasLine = true :=
    parse_error_hasLine_true initRun.stderr h3
  by_cases h0 : llm 0 = ""
  · simp [fix_file, h1, hs, hk, h0]
  by_cases he : extract_code (llm 0) = ""
  · simp [fix_file, h1, hs, hk, h0, he]
  by_cases hr : (execCode (extract_code (llm 0))).success = true
  · simp [fix_file, h1, hs, hk, h0, he, hr, applyFix_prompts]
  · cases hL : fixLoop execCode llm (extract_code (llm 0))
        (execCode (extract_code (llm 0))).stderr 1 (mr - 1) with
    | mk fc' iv ts' rz lc ec ps =>
      cases rz with
      | true => simp [fix_file, h1, hs, hk, h0, he, hr, hL]
      | false =>
        cases iv with
        | true => simp [fix_file, h1, hs, hk, h0, he, hr, hL, applyFix_prompts]
        | false => simp [fix_file, h1, hs, hk, h0, he, hr, hL]

theorem format_traceback_truncates (s : String)
    (h3 : 10 < (pyLines s).length) :
    format_traceback s =
      (joinNl ((pyLines s).drop ((pyLines s).length - 10))).asString ∧
    format_traceback s ≠ s := by
  have heq : format_traceback s =
      (joinNl ((pyLines s).drop ((pyLines s).length - 10))).asString := by
    unfold format_traceback
    rw [if_pos h3]
  refine ⟨heq, fun hcontra => ?_⟩
  have hlen : (pyLines s).length = (pyStrip s.data).count '\n' + 1 :=
    splitNl_length (pyStrip s.data)
  have hk : ((pyLines s).drop ((pyLines s).length - 10)).length = 10 := by
    rw [List.length_drop]
    omega
  have hnl : ∀ l ∈ (pyLines s).drop ((pyLines s).length - 10), '\n' ∉ l :=
    fun l hl => mem_splitNl_no_nl (pyStrip s.data) l ((List.drop_subset _ _) hl)
  have hne : (pyLines s).drop ((pyLines s).length - 10) ≠ [] := by
    intro hnil
    rw [hnil] at hk
    simp at hk
  have hcount : (joinNl ((pyLines s).drop ((pyLines s).length - 10))).count '\n' = 9 := by
    rw [joinNl_count _ hnl hne, hk]
  have hcount2 : 10 ≤ (s.data).count '\n' := by
    have := count_pyStrip_le s.data
    omega
  have hdata : joinNl ((pyLines s).drop ((pyLines s).length - 10)) = s.data :=
    congrArg String.data (heq.symm.trans hcontra)
  rw [hdata] at hcount
  omega

/-- C10: for every stderr with more than 10 lines, the first repair
prompt embeds `format_traceback(stderr)` as its error text, that text is
exactly the last 10 lines of the (stripped) stderr joined by newlines,
and it differs from the full stderr — the full stderr is never handed to
the completion service on the first attempt. -/
theorem fix_file_first_prompt_truncated (mr : Nat) (code : String)
    (initRun : ExecResult) (execCode : String → ExecResult) (llm : Nat → String)
    (aa cf wo : Bool) (h1 : code ≠ "") (h2 : initRun.success = false)
    (h3 : 10 < (pyLines initRun.stderr).length) :
    (fix_file mr code initRun execCode llm aa cf wo).prompts.head? =
      some (createPromptFix code (format_traceback initRun.stderr)) ∧
    format_traceback initRun.stderr =
      (joinNl ((pyLines initRun.stderr).drop
        ((pyLines initRun.stderr).length - 10))).asString ∧
    format_traceback initRun.stderr ≠ initRun.stderr :=
  ⟨fix_file_prompts_head mr code initRun execCode llm aa cf wo h1 h2
      (fun h0 => absurd (h0 ▸ h3) (by decide)),
   (format_traceback_truncates initRun.stderr h3).1,
   (format_traceback_truncates initRun.stderr h3).2⟩

/-- Witness for C10 on an 11-line stderr. -/
theorem fix_file_first_prompt_truncated_witness :
    (fix_file 3 "x" ⟨false, "", "1\n2\n3\n4\n5\n6\n7\n8\n9\n10\n11"⟩
        (fun _ => ⟨true, "", ""⟩) (fun _ => "y") true true true).prompts.head? =
      some (createPromptFix "x"
        (format_traceback "1\n2\n3\n4\n5\n6\n7\n8\n9\n10\n11")) ∧
    format_traceback "1\n2\n3\n4\n5\n6\n7\n8\n9\n10\n11" =
      (joinNl ((pyLines "1\n2\n3\n4\n5\n6\n7\n8\n9\n10\n11").drop
        ((pyLines "1\n2\n3\n4\n5\n6\n7\n8\n9\n10\n11").length - 10))).asString ∧
    format_traceback "1\n2\n3\n4\n5\n6\n7\n8\n9\n10\n11" ≠
      "1\n2\n3\n4\n5\n6\n7\n8\n9\n10\n11" :=
  fix_file_first_prompt_truncated 3 "x"
    ⟨false, "", "1\n2\n3\n4\n5\n6\n7\n8\n9\n10\n11"⟩
    (fun _ => ⟨true, "", ""⟩) (fun _ => "y") true true true
    (by decide) rfl (by decide)

end PyAgent
